import Mathlib

/-!
Verification of the I2S 4-channel export decoder (src/pd.py) against its
specification.  The decoder state machine, the emission routine and the
PCM serialization routine are embedded shallowly below; each claim about
the decoder is then settled as a theorem over this embedding.

Conventions of the embedding:
  - logic-channel values and Python small ints are modelled as Nat;
  - the Python sentinel -1 stored in self.wordlength is modelled with Int;
  - self.samplerate, self.ss_block and self.first_sample, which start as
    None, are modelled with Option Nat;
  - struct.pack uses native byte order; the platforms this decoder runs
    on are little endian, so packing is modelled as little-endian bytes,
    and a struct.error (value out of range for the format) is modelled by
    an Option payload of none;
  - an exception raised by decode is modelled by Except.error carrying
    the (unchanged) decoder state.
-/

namespace I2S4

/-- Sample models one element yielded by the iterator that decode walks:
the sample number together with the six logic pin values
(sck, ws, sd0, sd1, sd2, sd3), each 0 or 1 in a capture. -/
structure Sample where
  samplenum : Nat
  sck : Nat
  ws : Nat
  sd0 : Nat
  sd1 : Nat
  sd2 : Nat
  sd3 : Nat
  deriving DecidableEq

/-- DecState models the mutable instance fields of Decoder that the
decode loop reads and writes (src/pd.py lines 69-83). -/
structure DecState where
  samplerate : Option Nat
  oldsck : Nat
  oldws : Nat
  bitcount : Nat
  d0 : Nat
  d1 : Nat
  d2 : Nat
  d3 : Nat
  samplesreceived : Nat
  first_sample : Option Nat
  ss_block : Option Nat
  wordlength : Int
  wrote_wav_header : Bool
  deriving DecidableEq

/-- The initial field values assigned in Decoder.__init__ (lines 69-79).
The fields d0, d1, d2, d3 model the list self.data_all. -/
def initState : DecState where
  samplerate := none
  oldsck := 1
  oldws := 1
  bitcount := 0
  d0 := 0
  d1 := 0
  d2 := 0
  d3 := 0
  samplesreceived := 0
  first_sample := none
  ss_block := none
  wordlength := -1
  wrote_wav_header := false

/-- Output models one externally visible effect of the decode loop:
the one-time WAV header blob (line 174), a structured python record
(putpb, line 184), an annotation (putb, lines 185 and 192), or a write
of packed bytes to one of the eight PCM files (lines 225-228).
A pcmWrite payload of none models struct.error on an out-of-range value. -/
inductive Output where
  | wavHeader : Output
  | dataRec (ss es : Nat) (channel : String) (values : List Nat) : Output
  | ann (ss es : Nat) (cls : Nat) (texts : List String) : Output
  | pcmWrite (fileIdx : Nat) (payload : Option (List Nat)) : Output
  deriving DecidableEq

/-- The file names opened in Decoder.__init__ (lines 80-83), in the order
of the self.fout list. -/
def foutNames : List String :=
  ["ch0L.pcm", "ch0R.pcm", "ch1L.pcm", "ch1R.pcm",
   "ch2L.pcm", "ch2R.pcm", "ch3L.pcm", "ch3R.pcm"]

/-- Lowercase hexadecimal digit character for a value below 16. -/
def hexDigitChar (n : Nat) : Char :=
  if n < 10 then Char.ofNat (48 + n) else Char.ofNat (87 + n)

/-- Fuel-driven list of lowercase hexadecimal digits of a number
(most significant first); the fuel argument only bounds recursion
and any fuel above log16 of the number gives the exact digits. -/
def hexDigitsAux : Nat → Nat → List Char
  | 0, _ => []
  | fuel + 1, n =>
    if n < 16 then [hexDigitChar n]
    else hexDigitsAux fuel (n / 16) ++ [hexDigitChar (n % 16)]

/-- Python string interpolation with the format 04x: lowercase
hexadecimal, zero padded on the left to a minimum width of 4
(used at line 183). -/
def format04x (n : Nat) : String :=
  let ds := hexDigitsAux (n + 1) n
  String.mk (List.replicate (4 - ds.length) '0' ++ ds)

/-- Decimal digit characters of a natural number, fuel-driven. -/
def decDigitsAux : Nat → Nat → List Char
  | 0, _ => []
  | fuel + 1, n =>
    if n < 10 then [Char.ofNat (48 + n)]
    else decDigitsAux fuel (n / 10) ++ [Char.ofNat (48 + n % 10)]

/-- Python string interpolation with the format d for a Nat. -/
def natDec (n : Nat) : String := String.mk (decDigitsAux (n + 1) n)

/-- Python string interpolation with the format d for an Int. -/
def intDec (i : Int) : String :=
  if i < 0 then "-" ++ natDec i.natAbs else natDec i.toNat

/-- Byte size of the struct format characters used by save_data:
H is a native unsigned short (2 bytes), I a native unsigned int (4). -/
def structSize (fmt : String) : Nat := if fmt = "H" then 2 else 4

/-- Little-endian byte list of a value, with the given byte count. -/
def leBytes : Nat → Nat → List Nat
  | 0, _ => []
  | k + 1, v => v % 256 :: leBytes k (v / 256)

/-- Model of struct.pack fmt v on a little-endian platform: the bytes of
v when it fits the format width, none (struct.error) otherwise. -/
def structPack (fmt : String) (v : Nat) : Option (List Nat) :=
  if v < 2 ^ (8 * structSize fmt) then some (leBytes (structSize fmt) v) else none

/-- Decoder.save_data (lines 208-228): choose struct format and shift
from the configured word length, then write the four (left-shifted)
values to fout[0 + ws], fout[2 + ws], fout[4 + ws], fout[6 + ws].
The final none branch cannot be reached with a validated word length;
in Python it would leave pack_config_string unbound and crash. -/
def save_data (wl : Nat) (ws : Nat) (data0 data1 data2 data3 : Nat) : List Output :=
  let cfg : Option (String × Nat) :=
    if wl = 12 then some ("H", 4)
    else if wl = 16 then some ("H", 0)
    else if wl = 20 then some ("I", 12)
    else if wl = 24 then some ("I", 8)
    else if wl = 32 then some ("I", 0)
    else none
  match cfg with
  | none => []
  | some (fmt, shift) =>
    [Output.pcmWrite (0 + ws) (structPack fmt (data0 <<< shift)),
     Output.pcmWrite (2 + ws) (structPack fmt (data1 <<< shift)),
     Output.pcmWrite (4 + ws) (structPack fmt (data2 <<< shift)),
     Output.pcmWrite (6 + ws) (structPack fmt (data3 <<< shift))]

/-- Space-joined 04x formatting of the four accumulated values, exactly
the string built at line 183. -/
def fmtVals (a b c d : Nat) : String :=
  format04x a ++ " " ++ format04x b ++ " " ++ format04x c ++ " " ++ format04x d

/-- Outputs produced by the emission block (lines 171-195) of decode,
given the state after the final bit of the word has been accumulated
(so st.bitcount is the completed word length), the current sample
number and the value ssb held by self.ss_block. -/
def emitOutputs (wl : Nat) (st : DecState) (samplenum ssb : Nat) : List Output :=
  let headerOuts : List Output := if st.wrote_wav_header then [] else [Output.wavHeader]
  let c1 := if st.oldws ≠ 0 then "Left channel" else "Right channel"
  let c2 := if st.oldws ≠ 0 then "Left" else "Right"
  let c3 := if st.oldws ≠ 0 then "L" else "R"
  let idx := if st.oldws ≠ 0 then 0 else 1
  let v := fmtVals st.d0 st.d1 st.d2 st.d3
  let warnOuts : List Output :=
    if st.wordlength ≠ -1 ∧ st.wordlength ≠ (st.bitcount : Int) then
      [Output.ann ssb samplenum 2
        ["Received " ++ natDec st.bitcount ++ "-bit word, expected " ++
         intDec st.wordlength ++ "-bit word"]]
    else []
  headerOuts ++
    [Output.dataRec ssb samplenum c3 [st.d0, st.d1, st.d2, st.d3],
     Output.ann ssb samplenum idx
       [c1 ++ ": " ++ v, c2 ++ ": " ++ v, c3 ++ ": " ++ v, c3]] ++
    save_data wl st.oldws st.d0 st.d1 st.d2 st.d3 ++
    warnOuts

/-- The body of the decode loop from the rising clock edge on
(lines 157-206): force the data bits to zero on overrun, shift them into
the accumulators, increment the bit count; if word select flipped,
emit (when a block was open) and reset the per-word state. -/
def processRising (wl : Nat) (st : DecState) (s : Sample) : DecState × List Output :=
  let bits : Nat × Nat × Nat × Nat :=
    if wl ≤ st.bitcount then (0, 0, 0, 0) else (s.sd0, s.sd1, s.sd2, s.sd3)
  let st1 : DecState :=
    { st with
      d0 := st.d0 <<< 1 ||| bits.1
      d1 := st.d1 <<< 1 ||| bits.2.1
      d2 := st.d2 <<< 1 ||| bits.2.2.1
      d3 := st.d3 <<< 1 ||| bits.2.2.2
      bitcount := st.bitcount + 1 }
  if s.ws = st1.oldws then (st1, [])
  else
    let emitted : DecState × List Output :=
      match st1.ss_block with
      | none => (st1, [])
      | some ssb =>
        ({ st1 with
            wrote_wav_header := true
            samplesreceived := st1.samplesreceived + 1
            wordlength := (st1.bitcount : Int) },
         emitOutputs wl st1 s.samplenum ssb)
    ({ emitted.1 with
        d0 := 0
        d1 := 0
        d2 := 0
        d3 := 0
        bitcount := 0
        ss_block := some s.samplenum
        first_sample :=
          if emitted.1.first_sample = none then some s.samplenum
          else emitted.1.first_sample
        oldws := s.ws }, emitted.2)

/-- One iteration of the decode loop (lines 147-206): skip the sample if
the clock is unchanged, track the new clock value, skip falling edges,
and process rising edges. -/
def processSample (wl : Nat) (st : DecState) (s : Sample) : DecState × List Output :=
  if s.sck = st.oldsck then (st, [])
  else
    let st1 : DecState := { st with oldsck := s.sck }
    if s.sck = 0 then (st1, []) else processRising wl st1 s

/-- The whole decode loop over a list of samples, collecting all outputs
in emission order. -/
def runSamples (wl : Nat) (st : DecState) : List Sample → DecState × List Output
  | [] => (st, [])
  | s :: rest =>
    let r1 := processSample wl st s
    let r2 := runSamples wl r1.1 rest
    (r2.1, r1.2 ++ r2.2)

/-- Decoder.decode (lines 144-206): raise SamplerateError when no sample
rate is known (self.samplerate is None, or a falsy 0 value was supplied)
before touching any input sample, else run the loop.  The error carries
the unchanged state. -/
def decode (wl : Nat) (st : DecState) (input : List Sample) :
    Except DecState (DecState × List Output) :=
  match st.samplerate with
  | none => Except.error st
  | some r => if r = 0 then Except.error st else Except.ok (runSamples wl st input)

/-- The word length option of the decoder as written at line 66 of
src/pd.py: default 16, values tuple (12,16,20,24.32).  The values are
Python numbers, modelled as rationals, because the last element of the
tuple is the float 24.32 (a typo for the two integers 24, 32). -/
def word_length_values : List ℚ := [12, 16, 20, 2432 / 100]

/-- The default of the word length option (line 66). -/
def word_length_default : ℚ := 16

/-- The branch dispatch of save_data (lines 209-223) at the precision of
Python numbers: the struct format character and shift chosen for a
configured word length, or none when no branch matches (in Python the
following pack call then fails on an unbound local, mid-stream). -/
def save_data_config (wl : ℚ) : Option (String × Nat) :=
  if wl = 12 then some ("H", 4)
  else if wl = 16 then some ("H", 0)
  else if wl = 20 then some ("I", 12)
  else if wl = 24 then some ("I", 8)
  else if wl = 32 then some ("I", 0)
  else none

/-- A decoder state that has been given a sample rate, as used by the
concrete test runs below. -/
def readyState : DecState := { initState with samplerate := some 48000 }

/-- Two samples forming one bit-clock pulse (clock low then clock high)
with the given word-select and data-line values. -/
def pulse (num ws b0 b1 b2 b3 : Nat) : List Sample :=
  [⟨num, 0, ws, b0, b1, b2, b3⟩, ⟨num + 1, 1, ws, b0, b1, b2, b3⟩]

/-- A train of n consecutive pulses with constant word-select and data
values, numbering samples from num. -/
def pulseTrain (num : Nat) : Nat → (ws b0 b1 b2 b3 : Nat) → List Sample
  | 0, _, _, _, _, _ => []
  | k + 1, ws, b0, b1, b2, b3 =>
    pulse num ws b0 b1 b2 b3 ++ pulseTrain (num + 2) k ws b0 b1 b2 b3

/-- Data-line values for one clock pulse, used to build pulse trains
with per-pulse data. -/
structure Bits4 where
  b0 : Nat
  b1 : Nat
  b2 : Nat
  b3 : Nat
  deriving DecidableEq

/-- One pulse per element of the list, all with the same word-select
value (so no word boundary occurs inside the train). -/
def pulsesOf (ws : Nat) : List Bits4 → List Sample
  | [] => []
  | b :: rest =>
    ⟨0, 0, ws, b.b0, b.b1, b.b2, b.b3⟩ :: ⟨0, 1, ws, b.b0, b.b1, b.b2, b.b3⟩ ::
      pulsesOf ws rest

/-- Values carried by the structured DATA records of an output list. -/
def wordValues (outs : List Output) : List (List Nat) :=
  outs.filterMap fun o => match o with
    | Output.dataRec _ _ _ vs => some vs
    | _ => none

/-- Channel designators carried by the structured DATA records. -/
def dataChannels (outs : List Output) : List String :=
  outs.filterMap fun o => match o with
    | Output.dataRec _ _ c _ => some c
    | _ => none

/-- The per-word (left or right channel, class 0 or 1) annotations of an
output list; warnings have class 2 and are excluded. -/
def perWordAnns (outs : List Output) : List Output :=
  outs.filter fun o => match o with
    | Output.ann _ _ 0 _ => true
    | Output.ann _ _ 1 _ => true
    | _ => false

/-- The text lists of the per-word annotations. -/
def annTexts (outs : List Output) : List (List String) :=
  (perWordAnns outs).filterMap fun o => match o with
    | Output.ann _ _ _ ts => some ts
    | _ => none

/-- The warning (class 2) annotations of an output list. -/
def warnAnns (outs : List Output) : List Output :=
  outs.filter fun o => match o with
    | Output.ann _ _ 2 _ => true
    | _ => false

/-- The fout indices targeted by the PCM writes of an output list. -/
def pcmIndices (outs : List Output) : List Nat :=
  outs.filterMap fun o => match o with
    | Output.pcmWrite i _ => some i
    | _ => none

/-- An output is a safe PCM write: if it writes PCM bytes, the packed
payload exists (no struct.error). -/
def pcmOk (o : Output) : Prop :=
  match o with
  | Output.pcmWrite _ p => p.isSome = true
  | _ => True

/-- Hexadecimal digits of a value, zero padded on the left to a given
minimum width; used to state the digit width the spec prescribes. -/
def specHexPad (w n : Nat) : String :=
  let ds := hexDigitsAux (n + 1) n
  String.mk (List.replicate (w - ds.length) '0' ++ ds)

/-- Pack width in bytes that claim C2 prescribes per word length. -/
def specPackWidth (wl : Nat) : Nat := if wl ≤ 16 then 2 else 4

/-- Alignment shift amount that claim C2 and the spec table prescribe
per word length. -/
def specShift (wl : Nat) : Nat :=
  if wl = 12 then 4 else if wl = 20 then 12 else if wl = 24 then 8 else 0

/-- Little-endian fixed-width packing at a given byte width. -/
def packLE (width v : Nat) : Option (List Nat) :=
  if v < 2 ^ (8 * width) then some (leBytes width v) else none

/-- Modelled from the claim C2 wording: right-shift the accumulated
value by the alignment amount, then serialize little-endian at the
prescribed width. -/
def specSaveBytes (wl v : Nat) : Option (List Nat) :=
  packLE (specPackWidth wl) (v >>> specShift wl)

/-- Per-value serialization that save_data actually performs: left shift
by the alignment amount, then little-endian bytes at the same width. -/
def codeSaveBytes (wl v : Nat) : Option (List Nat) :=
  packLE (specPackWidth wl) (v <<< specShift wl)

/-- Word window of 12 data bits all ones, preceded by the block-opening
word-select flip: the base run for the overrun comparison. -/
def c1BaseInput : List Sample :=
  pulse 0 0 1 1 1 1 ++ pulseTrain 2 11 0 1 1 1 1 ++ pulse 24 1 1 1 1 1

/-- The same word window with two extra clock pulses injected beyond the
12 configured bits, before the closing word-select flip. -/
def c1OverrunInput : List Sample :=
  pulse 0 0 1 1 1 1 ++ pulseTrain 2 13 0 1 1 1 1 ++ pulse 28 1 1 1 1 1

/-- Thirteen clock pulses with word select never flipping. -/
def c3Input : List Sample := pulseTrain 0 13 1 1 1 1 1

/-- One complete 16-bit word window of all ones after the opening flip;
word select is 0 for the whole window, so the emitted word is a Right
word. -/
def c5Input : List Sample :=
  pulse 0 0 1 1 1 1 ++ pulseTrain 2 15 0 1 1 1 1 ++ pulse 32 1 1 1 1 1

/-- One complete 20-bit word window of all ones after the opening flip. -/
def c6Input : List Sample :=
  pulse 0 0 1 1 1 1 ++ pulseTrain 2 19 0 1 1 1 1 ++ pulse 40 1 1 1 1 1

/-- The value shifted into an accumulator holding d on a qualifying
clock edge at bit count bc, when the incoming data bit is sd
(lines 157-163): the bit is forced to zero once bc reached the
configured word length. -/
def nextAcc (wl bc d sd : Nat) : Nat :=
  d <<< 1 ||| (if wl ≤ bc then 0 else sd)

/- Helper lemmas about the output filters. -/

lemma perWordAnns_append (xs ys : List Output) :
    perWordAnns (xs ++ ys) = perWordAnns xs ++ perWordAnns ys := by
  simp [perWordAnns]

lemma warnAnns_append (xs ys : List Output) :
    warnAnns (xs ++ ys) = warnAnns xs ++ warnAnns ys := by
  simp [warnAnns]

lemma wordValues_append (xs ys : List Output) :
    wordValues (xs ++ ys) = wordValues xs ++ wordValues ys := by
  simp [wordValues]

lemma perWordAnns_save_data (wl ws a b c d : Nat) :
    perWordAnns (save_data wl ws a b c d) = [] := by
  simp only [save_data]
  split <;> simp [perWordAnns]

lemma warnAnns_save_data (wl ws a b c d : Nat) :
    warnAnns (save_data wl ws a b c d) = [] := by
  simp only [save_data]
  split <;> simp [warnAnns]

lemma wordValues_save_data (wl ws a b c d : Nat) :
    wordValues (save_data wl ws a b c d) = [] := by
  simp only [save_data]
  split <;> simp [wordValues]

lemma structPack_isSome (fmt : String) (v : Nat)
    (h : v < 2 ^ (8 * structSize fmt)) : (structPack fmt v).isSome = true := by
  simp [structPack, h]

lemma shiftLt {d bc wl s w : Nat} (hd : d < 2 ^ bc) (hb : bc ≤ wl)
    (hw : wl + s ≤ w) : d <<< s < 2 ^ w := by
  rw [Nat.shiftLeft_eq]
  calc d * 2 ^ s < 2 ^ bc * 2 ^ s :=
        (mul_lt_mul_right (pow_pos (by norm_num) s)).mpr hd
    _ = 2 ^ (bc + s) := (pow_add 2 bc s).symm
    _ ≤ 2 ^ w := Nat.pow_le_pow_right (by norm_num) (by omega)

/- Claim theorems. -/

/-- Claim C1 (counterexample): the claim is false as stated.  With word
length 12, the base run captures twelve one-bits on every data line and
emits 4095 on all four lines, while the run with two extra clock pulses
injected into the same word window (between the same two word-select
flips) emits 16380 = 4095 * 4: the overrun edges still left-shift the
accumulators, so the emitted values change. -/
theorem C1_counterexample :
    wordValues (runSamples 12 readyState c1BaseInput).2 =
      [[4095, 4095, 4095, 4095]] ∧
    wordValues (runSamples 12 readyState c1OverrunInput).2 =
      [[16380, 16380, 16380, 16380]] ∧
    ([[4095, 4095, 4095, 4095]] : List (List Nat)) ≠
      [[16380, 16380, 16380, 16380]] := by
  refine ⟨by decide, by decide, by decide⟩

/-- Claim C3 (counterexample): the claim is false as stated.  With word
length 12 and thirteen clock pulses inside one word window, the decoder
state reaches bitcount 13 > 12: the bit count is incremented on every
qualifying edge, also beyond the configured word length. -/
theorem C3_counterexample :
    12 < (runSamples 12 readyState c3Input).1.bitcount := by decide

/-- Claim C2 (counterexample): the claim is false as stated.  At word
length 12 and accumulated value 1, save_data writes the little-endian
bytes of 1 shifted LEFT by 4 (16 = bytes [16, 0]); the right shift the
claim prescribes would write the bytes of 1 >>> 4 = 0 ([0, 0]). -/
theorem C2_counterexample :
    save_data 12 0 1 1 1 1 =
      [Output.pcmWrite 0 (some [16, 0]), Output.pcmWrite 2 (some [16, 0]),
       Output.pcmWrite 4 (some [16, 0]), Output.pcmWrite 6 (some [16, 0])] ∧
    specSaveBytes 12 1 = some [0, 0] ∧
    (some [16, 0] : Option (List Nat)) ≠ some [0, 0] := by
  refine ⟨by decide, by decide, by decide⟩

/-- Claim C2 (amended): save_data LEFT-shifts each accumulated value by
the documented alignment amount (12 -> 4, 16 -> 0, 20 -> 12, 24 -> 8,
32 -> 0) and serializes it as a little-endian fixed-width integer of
16 bits when the word length is at most 16 and 32 bits otherwise,
writing data line k to fout index 2 * k + ws. -/
theorem C2_amended (wl ws d0 d1 d2 d3 : Nat)
    (h : wl ∈ ([12, 16, 20, 24, 32] : List Nat)) :
    save_data wl ws d0 d1 d2 d3 =
      [Output.pcmWrite (0 + ws) (codeSaveBytes wl d0),
       Output.pcmWrite (2 + ws) (codeSaveBytes wl d1),
       Output.pcmWrite (4 + ws) (codeSaveBytes wl d2),
       Output.pcmWrite (6 + ws) (codeSaveBytes wl d3)] := by
  have hv : wl = 12 ∨ wl = 16 ∨ wl = 20 ∨ wl = 24 ∨ wl = 32 := by simpa using h
  rcases hv with rfl | rfl | rfl | rfl | rfl <;> rfl

/-- Claim C2 (witness for the amended theorem) at word length 20. -/
theorem C2_amended_witness :
    (20 : Nat) ∈ ([12, 16, 20, 24, 32] : List Nat) ∧
    save_data 20 1 3 0 0 0 =
      [Output.pcmWrite (0 + 1) (codeSaveBytes 20 3),
       Output.pcmWrite (2 + 1) (codeSaveBytes 20 0),
       Output.pcmWrite (4 + 1) (codeSaveBytes 20 0),
       Output.pcmWrite (6 + 1) (codeSaveBytes 20 0)] :=
  ⟨by decide, C2_amended 20 1 3 0 0 0 (by decide)⟩

/-- Claim C4 (code bug): the values tuple of the word_length option at
line 66 is (12,16,20,24.32) - the float 24.32 instead of the two
integers 24, 32.  The default is 16 as specified, but 24 and 32 are not
accepted at configuration time even though save_data supports them,
while the listed value 24.32 matches no save_data branch, so a decoder
configured with it fails mid-stream instead of at configuration time. -/
theorem C4_values_bug :
    word_length_default = 16 ∧
    (24 : ℚ) ∉ word_length_values ∧
    (32 : ℚ) ∉ word_length_values ∧
    (2432 / 100 : ℚ) ∈ word_length_values ∧
    save_data_config 24 = some ("I", 8) ∧
    save_data_config 32 = some ("I", 0) ∧
    save_data_config (2432 / 100) = none := by
  refine ⟨by norm_num [word_length_default], ?_, ?_, ?_, ?_, ?_, ?_⟩ <;>
    norm_num [word_length_values, save_data_config]

/-- Claim C5 (code bug): in the concrete run c5Input the completed word
is designated Right (word select before the flip was 0) in its DATA
record, yet its PCM bytes are written to fout indices 0, 2, 4, 6, which
are the files named ch0L.pcm, ch1L.pcm, ch2L.pcm, ch3L.pcm: the
left/right file assignment is swapped relative to the file naming
convention and the channel designation. -/
theorem C5_left_right_swap :
    dataChannels (runSamples 16 readyState c5Input).2 = ["R"] ∧
    pcmIndices (runSamples 16 readyState c5Input).2 = [0, 2, 4, 6] ∧
    foutNames = ["ch0L.pcm", "ch0R.pcm", "ch1L.pcm", "ch1R.pcm",
                 "ch2L.pcm", "ch2R.pcm", "ch3L.pcm", "ch3R.pcm"] := by
  refine ⟨by decide, by decide, by decide⟩

/-- Claim C6 (counterexample): the claim is false as stated.  With word
length 20 (greater than 16) the per-word annotation formats the value
1048575 as "fffff" (the format is always 04x, minimum width 4), not as
the 8-hex-digit "000fffff" the claim prescribes; the 8-digit form
appears nowhere in the emitted annotation text. -/
theorem C6_counterexample :
    annTexts (runSamples 20 readyState c6Input).2 =
      [["Right channel: fffff fffff fffff fffff",
        "Right: fffff fffff fffff fffff",
        "R: fffff fffff fffff fffff", "R"]] ∧
    wordValues (runSamples 20 readyState c6Input).2 =
      [[1048575, 1048575, 1048575, 1048575]] ∧
    specHexPad 8 1048575 = "000fffff" ∧
    ¬ ("000fffff".toList <:+:
        "Right channel: fffff fffff fffff fffff".toList) := by
  refine ⟨by decide, by decide, by decide, by decide⟩

/-- Claim C9 (confirmed): when no sample rate has been supplied (the
field is still None, or the supplied value is the falsy 0), every call
to decode fails with SamplerateError before consuming any input sample,
the decoder state unchanged (the error carries it untouched); when a
nonzero sample rate has been supplied, decode never fails for the
missing-sample-rate reason and runs the loop on the whole input. -/
theorem C9_samplerate_guard (wl : Nat) (st : DecState) (input : List Sample) :
    ((st.samplerate = none ∨ st.samplerate = some 0) →
      decode wl st input = Except.error st) ∧
    (∀ r : Nat, st.samplerate = some r → r ≠ 0 →
      decode wl st input = Except.ok (runSamples wl st input)) := by
  constructor
  · rintro (h | h) <;> simp [decode, h]
  · intro r hr h0
    simp [decode, hr, h0]

/-- Claim C9 (witness): the guard at concrete states, on both sides. -/
theorem C9_samplerate_guard_witness :
    decode 16 initState [] = Except.error initState ∧
    decode 16 readyState [] = Except.ok (runSamples 16 readyState []) :=
  ⟨(C9_samplerate_guard 16 initState []).1 (Or.inl rfl),
   (C9_samplerate_guard 16 readyState []).2 48000 rfl (by decide)⟩

/-- Claim C8 (confirmed): on a rising clock edge whose word-select flip
is the first one ever observed (self.ss_block is still None), the
decoder emits nothing at all - no DATA record, no annotation, no PCM
write, no header - and only resets the accumulators and the bit count,
records the block start sample (and the first sample, previously unset),
and stores the new clock and word-select values. -/
theorem C8_first_flip_silent (wl : Nat) (st : DecState) (s : Sample)
    (h : s.sck ≠ st.oldsck) (h0 : s.sck ≠ 0) (hflip : s.ws ≠ st.oldws)
    (hb : st.ss_block = none) :
    processSample wl st s =
      ({ st with
          oldsck := s.sck
          oldws := s.ws
          d0 := 0
          d1 := 0
          d2 := 0
          d3 := 0
          bitcount := 0
          ss_block := some s.samplenum
          first_sample :=
            if st.first_sample = none then some s.samplenum
            else st.first_sample }, []) := by
  simp [processSample, processRising, h, h0, hflip, hb]

/-- Claim C8 (witness): the first flip of a concrete run is silent. -/
theorem C8_first_flip_silent_witness :
    (1 : Nat) ≠ (0 : Nat) ∧ (1 : Nat) ≠ (0 : Nat) ∧ (0 : Nat) ≠ (1 : Nat) ∧
    ({ readyState with oldsck := 0 } : DecState).ss_block = none ∧
    processSample 16 { readyState with oldsck := 0 } ⟨7, 1, 0, 1, 1, 1, 1⟩ =
      ({ { readyState with oldsck := 0 } with
          oldsck := 1
          oldws := 0
          d0 := 0
          d1 := 0
          d2 := 0
          d3 := 0
          bitcount := 0
          ss_block := some 7
          first_sample :=
            if ({ readyState with oldsck := 0 } : DecState).first_sample = none
            then some 7
            else ({ readyState with oldsck := 0 } : DecState).first_sample }, []) :=
  ⟨by decide, by decide, by decide, by decide,
   C8_first_flip_silent 16 { readyState with oldsck := 0 } ⟨7, 1, 0, 1, 1, 1, 1⟩
     (by decide) (by decide) (by decide) (by decide)⟩

/-- Claim C3 (amended): the bit count is incremented on every qualifying
clock edge and can exceed the configured word length; once word_length
bits have been accumulated, further incoming data bits are forced to
zero (each accumulator is still left-shifted by one, the raw data-line
values are ignored). -/
theorem C3_amended_overrun_bits (wl : Nat) (st : DecState) (s : Sample)
    (h : s.sck ≠ st.oldsck) (h0 : s.sck ≠ 0) (hws : s.ws = st.oldws)
    (hbc : wl ≤ st.bitcount) :
    processSample wl st s =
      ({ st with
          oldsck := s.sck
          d0 := st.d0 <<< 1
          d1 := st.d1 <<< 1
          d2 := st.d2 <<< 1
          d3 := st.d3 <<< 1
          bitcount := st.bitcount + 1 }, []) := by
  simp [processSample, processRising, h, h0, hws, hbc]

/-- Claim C3 (witness for the amended theorem): one overrun edge at a
state that already holds 16 bits of a 16-bit word. -/
theorem C3_amended_overrun_bits_witness :
    (1 : Nat) ≠ (0 : Nat) ∧ (1 : Nat) ≠ (0 : Nat) ∧ (1 : Nat) = (1 : Nat) ∧
    16 ≤ ({ readyState with oldsck := 0, bitcount := 16, d0 := 9 } : DecState).bitcount ∧
    processSample 16 { readyState with oldsck := 0, bitcount := 16, d0 := 9 }
        ⟨5, 1, 1, 1, 1, 1, 1⟩ =
      ({ { readyState with oldsck := 0, bitcount := 16, d0 := 9 } with
          oldsck := 1
          d0 := (9 : Nat) <<< 1
          d1 := (0 : Nat) <<< 1
          d2 := (0 : Nat) <<< 1
          d3 := (0 : Nat) <<< 1
          bitcount := 16 + 1 }, []) :=
  ⟨by decide, by decide, rfl, by decide,
   C3_amended_overrun_bits 16 { readyState with oldsck := 0, bitcount := 16, d0 := 9 }
     ⟨5, 1, 1, 1, 1, 1, 1⟩ (by decide) (by decide) (by decide) (by decide)⟩

/-- Claim C10 (confirmed): for a word completed without overrun - the
bit count is at most the configured word length, so each accumulator is
below 2 ^ bitcount and hence below 2 ^ word_length - every PCM write
produced by save_data has a packed payload: the left-shifted value fits
the chosen struct width (2 ^ 16 for word lengths 12 and 16, 2 ^ 32 for
20, 24 and 32), so struct.pack cannot fail on an out-of-range value. -/
theorem C10_pack_in_range (wl ws d0 d1 d2 d3 bc : Nat)
    (hwl : wl ∈ ([12, 16, 20, 24, 32] : List Nat)) (hbc : bc ≤ wl)
    (h0 : d0 < 2 ^ bc) (h1 : d1 < 2 ^ bc) (h2 : d2 < 2 ^ bc)
    (h3 : d3 < 2 ^ bc) :
    ∀ o ∈ save_data wl ws d0 d1 d2 d3, pcmOk o := by
  have hv : wl = 12 ∨ wl = 16 ∨ wl = 20 ∨ wl = 24 ∨ wl = 32 := by simpa using hwl
  rcases hv with rfl | rfl | rfl | rfl | rfl <;>
    · intro o ho
      simp [save_data] at ho
      rcases ho with rfl | rfl | rfl | rfl <;>
        · simp only [pcmOk]
          apply structPack_isSome
          first
          | exact lt_of_lt_of_le (by assumption)
              (Nat.pow_le_pow_right (by norm_num) (le_trans hbc (by decide)))
          | exact shiftLt (by assumption) hbc (by decide)

/-- Claim C10 (witness): a full-scale 12-bit word packs without error. -/
theorem C10_pack_in_range_witness :
    (12 : Nat) ∈ ([12, 16, 20, 24, 32] : List Nat) ∧ 12 ≤ 12 ∧
    (4095 : Nat) < 2 ^ 12 ∧
    pcmOk (Output.pcmWrite 0 (structPack "H" (4095 <<< 4))) :=
  ⟨by decide, by decide, by decide,
   C10_pack_in_range 12 0 4095 4095 4095 4095 12 (by decide) (by decide)
     (by decide) (by decide) (by decide) (by decide)
     (Output.pcmWrite 0 (structPack "H" (4095 <<< 4))) (by decide)⟩

/- Lemmas characterizing the filters of the emission block. -/

lemma warnAnns_emit (wl : Nat) (st : DecState) (sn ssb : Nat) :
    warnAnns (emitOutputs wl st sn ssb) =
      (if st.wordlength ≠ -1 ∧ st.wordlength ≠ (st.bitcount : Int) then
        [Output.ann ssb sn 2
          ["Received " ++ natDec st.bitcount ++ "-bit word, expected " ++
           intDec st.wordlength ++ "-bit word"]]
      else []) := by
  simp only [emitOutputs, warnAnns_append, warnAnns_save_data]
  by_cases hw : st.wrote_wav_header <;> by_cases ho : st.oldws = 0 <;>
    by_cases hc : (st.wordlength ≠ -1 ∧ st.wordlength ≠ (st.bitcount : Int)) <;>
      simp [warnAnns, hw, ho, hc]

lemma perWordAnns_emit (wl : Nat) (st : DecState) (sn ssb : Nat) :
    perWordAnns (emitOutputs wl st sn ssb) =
      [Output.ann ssb sn (if st.oldws ≠ 0 then 0 else 1)
        [(if st.oldws ≠ 0 then "Left channel" else "Right channel") ++ ": " ++
           fmtVals st.d0 st.d1 st.d2 st.d3,
         (if st.oldws ≠ 0 then "Left" else "Right") ++ ": " ++
           fmtVals st.d0 st.d1 st.d2 st.d3,
         (if st.oldws ≠ 0 then "L" else "R") ++ ": " ++
           fmtVals st.d0 st.d1 st.d2 st.d3,
         (if st.oldws ≠ 0 then "L" else "R")]] := by
  simp only [emitOutputs, perWordAnns_append, perWordAnns_save_data]
  by_cases hw : st.wrote_wav_header <;> by_cases ho : st.oldws = 0 <;>
    by_cases hc : (st.wordlength ≠ -1 ∧ st.wordlength ≠ (st.bitcount : Int)) <;>
      simp [perWordAnns, hw, ho, hc]

lemma wordValues_emit (wl : Nat) (st : DecState) (sn ssb : Nat) :
    wordValues (emitOutputs wl st sn ssb) = [[st.d0, st.d1, st.d2, st.d3]] := by
  simp only [emitOutputs, wordValues_append, wordValues_save_data]
  by_cases hw : st.wrote_wav_header <;>
    by_cases hc : (st.wordlength ≠ -1 ∧ st.wordlength ≠ (st.bitcount : Int)) <;>
      simp [wordValues, hw, hc]

/-- Shared shape of an emitting step: on a rising edge with a
word-select flip and an open block, the outputs are exactly those of the
emission block applied to the post-accumulation state, and the recorded
word length is updated to the completed bit count. -/
lemma processSample_flip_emit (wl : Nat) (st : DecState) (s : Sample) (b : Nat)
    (h : s.sck ≠ st.oldsck) (h0 : s.sck ≠ 0) (hflip : s.ws ≠ st.oldws)
    (hb : st.ss_block = some b) :
    (processSample wl st s).2 =
      emitOutputs wl
        { st with
            oldsck := s.sck
            d0 := nextAcc wl st.bitcount st.d0 s.sd0
            d1 := nextAcc wl st.bitcount st.d1 s.sd1
            d2 := nextAcc wl st.bitcount st.d2 s.sd2
            d3 := nextAcc wl st.bitcount st.d3 s.sd3
            bitcount := st.bitcount + 1 } s.samplenum b ∧
    (processSample wl st s).1.wordlength = ((st.bitcount + 1 : Nat) : Int) := by
  by_cases hov : wl ≤ st.bitcount <;>
    simp [processSample, processRising, nextAcc, h, h0, hflip, hb, hov]

/-- Claim C7 (confirmed): on each word emission a warning annotation of
the form "Received N-bit word, expected M-bit word" is emitted if and
only if a previous word length had been recorded (the -1 sentinel
replaced) and it differs from the completed bit count of the current
word; and the recorded word length is set to the current bit count
whether or not the warning fired. -/
theorem C7_wordlength_warning (wl : Nat) (st : DecState) (s : Sample) (b : Nat)
    (h : s.sck ≠ st.oldsck) (h0 : s.sck ≠ 0) (hflip : s.ws ≠ st.oldws)
    (hb : st.ss_block = some b) :
    warnAnns (processSample wl st s).2 =
      (if st.wordlength ≠ -1 ∧ st.wordlength ≠ ((st.bitcount + 1 : Nat) : Int) then
        [Output.ann b s.samplenum 2
          ["Received " ++ natDec (st.bitcount + 1) ++ "-bit word, expected " ++
           intDec st.wordlength ++ "-bit word"]]
      else []) ∧
    (processSample wl st s).1.wordlength = ((st.bitcount + 1 : Nat) : Int) := by
  obtain ⟨e2, e1⟩ := processSample_flip_emit wl st s b h h0 hflip hb
  refine ⟨?_, e1⟩
  rw [e2, warnAnns_emit]

/-- Decoder state used by the C7 witness: a block is open, a 3-bit word
was recorded, 7 bits of the current word are in. -/
def c7St : DecState :=
  { readyState with oldsck := 0, oldws := 0, ss_block := some 1, wordlength := 3, bitcount := 7 }

/-- Claim C7 (witness): completing an 8-bit word when a 3-bit word was
recorded fires the mismatch warning and re-records the length as 8. -/
theorem C7_wordlength_warning_witness :
    (1 : Nat) ≠ c7St.oldsck ∧ (1 : Nat) ≠ (0 : Nat) ∧ (1 : Nat) ≠ c7St.oldws ∧
    c7St.ss_block = some 1 ∧
    warnAnns (processSample 16 c7St ⟨9, 1, 1, 1, 1, 1, 1⟩).2 =
      (if c7St.wordlength ≠ -1 ∧ c7St.wordlength ≠ ((c7St.bitcount + 1 : Nat) : Int) then
        [Output.ann 1 9 2
          ["Received " ++ natDec (c7St.bitcount + 1) ++ "-bit word, expected " ++
           intDec c7St.wordlength ++ "-bit word"]]
      else []) :=
  ⟨by decide, by decide, by decide, by decide,
   (C7_wordlength_warning 16 c7St ⟨9, 1, 1, 1, 1, 1, 1⟩ 1
     (by decide) (by decide) (by decide) (by decide)).1⟩

/-- Claim C6 (amended): every per-word annotation emitted on word
completion has the channel labels and the four accumulated values - the
same values as the DATA record of that emission - formatted with the
04x format (lowercase hexadecimal, minimum width 4), for every
configured word length alike; no 8-digit formatting is used for word
lengths above 16. -/
theorem C6_amended_always_04x (wl : Nat) (st : DecState) (s : Sample) (b : Nat)
    (h : s.sck ≠ st.oldsck) (h0 : s.sck ≠ 0) (hflip : s.ws ≠ st.oldws)
    (hb : st.ss_block = some b) :
    perWordAnns (processSample wl st s).2 =
      [Output.ann b s.samplenum (if st.oldws ≠ 0 then 0 else 1)
        [(if st.oldws ≠ 0 then "Left channel" else "Right channel") ++ ": " ++
           fmtVals (nextAcc wl st.bitcount st.d0 s.sd0)
             (nextAcc wl st.bitcount st.d1 s.sd1)
             (nextAcc wl st.bitcount st.d2 s.sd2)
             (nextAcc wl st.bitcount st.d3 s.sd3),
         (if st.oldws ≠ 0 then "Left" else "Right") ++ ": " ++
           fmtVals (nextAcc wl st.bitcount st.d0 s.sd0)
             (nextAcc wl st.bitcount st.d1 s.sd1)
             (nextAcc wl st.bitcount st.d2 s.sd2)
             (nextAcc wl st.bitcount st.d3 s.sd3),
         (if st.oldws ≠ 0 then "L" else "R") ++ ": " ++
           fmtVals (nextAcc wl st.bitcount st.d0 s.sd0)
             (nextAcc wl st.bitcount st.d1 s.sd1)
             (nextAcc wl st.bitcount st.d2 s.sd2)
             (nextAcc wl st.bitcount st.d3 s.sd3),
         (if st.oldws ≠ 0 then "L" else "R")]] ∧
    wordValues (processSample wl st s).2 =
      [[nextAcc wl st.bitcount st.d0 s.sd0, nextAcc wl st.bitcount st.d1 s.sd1,
        nextAcc wl st.bitcount st.d2 s.sd2, nextAcc wl st.bitcount st.d3 s.sd3]] := by
  obtain ⟨e2, -⟩ := processSample_flip_emit wl st s b h h0 hflip hb
  rw [e2, perWordAnns_emit, wordValues_emit]
  constructor <;> rfl

/-- Decoder state used by the C6 witness: a block is open and 19 bits
of a 20-bit word are in. -/
def c6St : DecState :=
  { readyState with oldsck := 0, oldws := 0, ss_block := some 1, bitcount := 19, d0 := 3 }

/-- Claim C6 (witness for the amended theorem): a concrete emitting
step with word length 20. -/
theorem C6_amended_always_04x_witness :
    (1 : Nat) ≠ c6St.oldsck ∧ (1 : Nat) ≠ (0 : Nat) ∧ (1 : Nat) ≠ c6St.oldws ∧
    c6St.ss_block = some 1 ∧
    perWordAnns (processSample 20 c6St ⟨9, 1, 1, 1, 0, 0, 0⟩).2 =
      [Output.ann 1 9 (if c6St.oldws ≠ 0 then 0 else 1)
        [(if c6St.oldws ≠ 0 then "Left channel" else "Right channel") ++ ": " ++
           fmtVals (nextAcc 20 c6St.bitcount c6St.d0 1)
             (nextAcc 20 c6St.bitcount c6St.d1 0)
             (nextAcc 20 c6St.bitcount c6St.d2 0)
             (nextAcc 20 c6St.bitcount c6St.d3 0),
         (if c6St.oldws ≠ 0 then "Left" else "Right") ++ ": " ++
           fmtVals (nextAcc 20 c6St.bitcount c6St.d0 1)
             (nextAcc 20 c6St.bitcount c6St.d1 0)
             (nextAcc 20 c6St.bitcount c6St.d2 0)
             (nextAcc 20 c6St.bitcount c6St.d3 0),
         (if c6St.oldws ≠ 0 then "L" else "R") ++ ": " ++
           fmtVals (nextAcc 20 c6St.bitcount c6St.d0 1)
             (nextAcc 20 c6St.bitcount c6St.d1 0)
             (nextAcc 20 c6St.bitcount c6St.d2 0)
             (nextAcc 20 c6St.bitcount c6St.d3 0),
         (if c6St.oldws ≠ 0 then "L" else "R")]] :=
  ⟨by decide, by decide, by decide, by decide,
   (C6_amended_always_04x 20 c6St ⟨9, 1, 1, 1, 0, 0, 0⟩ 1
     (by decide) (by decide) (by decide) (by decide)).1⟩

/- Step lemmas used by the overrun-window induction. -/

lemma processSample_fall (wl : Nat) (st : DecState) (s : Sample)
    (h : s.sck ≠ st.oldsck) (h0 : s.sck = 0) :
    processSample wl st s = ({ st with oldsck := s.sck }, []) := by
  simp only [processSample]
  rw [if_neg h, if_pos h0]

lemma processSample_overrun_noflip (wl : Nat) (st : DecState) (s : Sample)
    (h : s.sck ≠ st.oldsck) (h0 : s.sck ≠ 0) (hws : s.ws = st.oldws)
    (hbc : wl ≤ st.bitcount) :
    processSample wl st s =
      ({ st with
          oldsck := s.sck
          d0 := st.d0 <<< 1
          d1 := st.d1 <<< 1
          d2 := st.d2 <<< 1
          d3 := st.d3 <<< 1
          bitcount := st.bitcount + 1 }, []) := by
  simp [processSample, processRising, h, h0, hws, hbc]

/-- Claim C1 (amended): extra rising clock edges beyond word_length
inside one word window are not ignored - each one left-shifts every
accumulator, ORing in a forced zero bit - so a window with j extra
pulses carries accumulators multiplied by 2 ^ j (the captured bits
survive unchanged in the high bits, the excess bits are zeros) and a bit
count increased by j, while nothing is emitted inside the window; the
values the window finally emits therefore change by that power of two
relative to the run without the extra pulses. -/
theorem C1_amended_zero_extension (wl : Nat) (bs : List Bits4) (ws : Nat)
    (st : DecState) (hsck : st.oldsck = 1) (hws : ws = st.oldws)
    (hbc : wl ≤ st.bitcount) :
    runSamples wl st (pulsesOf ws bs) =
      ({ st with
          d0 := st.d0 * 2 ^ bs.length
          d1 := st.d1 * 2 ^ bs.length
          d2 := st.d2 * 2 ^ bs.length
          d3 := st.d3 * 2 ^ bs.length
          bitcount := st.bitcount + bs.length }, []) := by
  revert hsck hws hbc
  induction bs generalizing st with
  | nil =>
    intro hsck hws hbc
    simp [pulsesOf, runSamples]
  | cons b rest ih =>
    intro hsck hws hbc
    have e1 := processSample_fall wl st (⟨0, 0, ws, b.b0, b.b1, b.b2, b.b3⟩ : Sample)
      (by simp [hsck]) rfl
    have e2 := processSample_overrun_noflip wl { st with oldsck := 0 }
      (⟨0, 1, ws, b.b0, b.b1, b.b2, b.b3⟩ : Sample) (by simp) (by simp) hws hbc
    simp only [pulsesOf, runSamples, e1, e2]
    have hrun := ih { st with oldsck := 1, bitcount := st.bitcount + 1, d0 := st.d0 <<< 1, d1 := st.d1 <<< 1, d2 := st.d2 <<< 1, d3 := st.d3 <<< 1 } rfl hws (Nat.le_succ_of_le hbc)
    rw [hrun]
    have hd : ∀ x : Nat, x <<< 1 * 2 ^ rest.length = x * 2 ^ (rest.length + 1) := by
      intro x
      rw [Nat.shiftLeft_eq, pow_succ]
      ring
    simp [hd, hsck, List.length_cons, Nat.add_comm, Nat.add_assoc, Nat.add_left_comm]

/-- Decoder state used by the C1 witness: 12 bits of a 12-bit word are
already in, word select sits at 0. -/
def c1WitSt : DecState :=
  { readyState with oldws := 0, bitcount := 12, d0 := 4095, d1 := 1, d2 := 2, d3 := 3 }

/-- Claim C1 (witness for the amended theorem): two overrun pulses at a
state that already holds 12 bits of a 12-bit word quadruple every
accumulator. -/
theorem C1_amended_zero_extension_witness :
    c1WitSt.oldsck = 1 ∧ (0 : Nat) = c1WitSt.oldws ∧ 12 ≤ c1WitSt.bitcount ∧
    runSamples 12 c1WitSt (pulsesOf 0 [⟨1, 1, 0, 1⟩, ⟨0, 1, 1, 0⟩]) =
      ({ c1WitSt with
          d0 := c1WitSt.d0 * 2 ^ 2
          d1 := c1WitSt.d1 * 2 ^ 2
          d2 := c1WitSt.d2 * 2 ^ 2
          d3 := c1WitSt.d3 * 2 ^ 2
          bitcount := c1WitSt.bitcount + 2 }, []) :=
  ⟨rfl, rfl, by decide,
   C1_amended_zero_extension 12 [⟨1, 1, 0, 1⟩, ⟨0, 1, 1, 0⟩] 0 c1WitSt
     rfl rfl (by decide)⟩

end I2S4
